import Mathlib

/-!
Verification of the Krishimitra front-end core (src/script.js): the mocked
response fetcher, the bounded history cache, history rendering and HTML
escaping, the query-submission flow, the persisted-history load, and the
typewriter reveal effect.  Each definition is a shallow embedding of the
corresponding JavaScript function; machine behaviour such as `JSON.parse`
or `Date.toLocaleString` (browser built-ins, not repository code) is
modelled where a claim needs it, as noted in the doc comments.
-/

set_option maxRecDepth 8000

namespace Krishimitra

/-- The apostrophe character (U+0027). -/
def apos : Char := Char.ofNat 39

/-- Substring test on lists of characters: does `pat` occur contiguously in
the list?  `listIncl pat l` mirrors JavaScript `l.includes(pat)`. -/
def listIncl (pat : List Char) : List Char → Bool
  | [] => pat.isEmpty
  | c :: rest => pat.isPrefixOf (c :: rest) || listIncl pat rest

/-- JavaScript `String.prototype.includes`: `strIncludes s pat` is true iff
`pat` occurs as a contiguous substring of `s`. -/
def strIncludes (s pat : String) : Bool :=
  listIncl pat.data s.data

theorem listIncl_iff_occurs (pat l : List Char) :
    listIncl pat l = true ↔ pat <:+: l := by
  induction l with
  | nil =>
    simp only [listIncl, List.isEmpty_iff]
    constructor
    · intro h; simp [h]
    · intro h; exact List.eq_nil_of_infix_nil h
  | cons c rest ih =>
    simp only [listIncl, Bool.or_eq_true, List.isPrefixOf_iff_prefix, ih,
      List.infix_cons_iff]

theorem strIncludes_iff_occurs (s pat : String) :
    strIncludes s pat = true ↔ pat.data <:+: s.data :=
  listIncl_iff_occurs pat.data s.data

theorem strIncludes_ne_nil {s pat : String} (hp : pat ≠ "")
    (h : strIncludes s pat = true) : s ≠ "" := by
  intro hs
  subst hs
  rw [strIncludes_iff_occurs] at h
  have hd : pat.data = [] := List.eq_nil_of_infix_nil h
  exact hp (by cases pat; simp_all)

/-- Substring containment is monotone: if `p` occurs in `pat` and `pat`
occurs in `s` then `p` occurs in `s`. -/
theorem strIncludes_trans {s pat p : String}
    (h1 : strIncludes pat p = true) (h2 : strIncludes s pat = true) :
    strIncludes s p = true := by
  rw [strIncludes_iff_occurs] at *
  exact h1.trans h2

-- ---------------------------------------------------------------------------
-- escapeHtml (src/script.js lines 208-210)
-- ---------------------------------------------------------------------------

/-- Replacement for a single character under the regex
`/[&<>"']/g` of `escapeHtml`: the five HTML-special characters become
entities, every other character is kept. -/
def escCharL (c : Char) : List Char :=
  if c = '&' then ['&', 'a', 'm', 'p', ';']
  else if c = '<' then ['&', 'l', 't', ';']
  else if c = '>' then ['&', 'g', 't', ';']
  else if c = '"' then ['&', 'q', 'u', 'o', 't', ';']
  else if c = apos then ['&', '#', '3', '9', ';']
  else [c]

/-- Character-list core of `escapeHtml`: replace every special character. -/
def escapeCore : List Char → List Char
  | [] => []
  | c :: rest => escCharL c ++ escapeCore rest

/-- Embedding of `escapeHtml` from src/script.js: `(s || '').replace(/[&<>"']/g, m => ...)`.
A `none` input models JavaScript `null`/`undefined`, which `(s || '')`
turns into the empty string. -/
def escapeHtml (s : Option String) : String :=
  ⟨escapeCore (s.getD "").data⟩

theorem escapeCore_append (a b : List Char) :
    escapeCore (a ++ b) = escapeCore a ++ escapeCore b := by
  induction a with
  | nil => simp [escapeCore]
  | cons c rest ih => simp [escapeCore, ih]

theorem escCharL_ne_nil (c : Char) : escCharL c ≠ [] := by
  unfold escCharL
  repeat' split
  all_goals simp

theorem escapeCore_eq_nil_iff (l : List Char) :
    escapeCore l = [] ↔ l = [] := by
  cases l with
  | nil => simp [escapeCore]
  | cons c rest =>
    simp only [escapeCore]
    constructor
    · intro h
      exact absurd (List.append_eq_nil.mp h).1 (escCharL_ne_nil c)
    · intro h; cases h

theorem escCharL_no_special {d c : Char} (hc : c ∈ escCharL d) :
    c ≠ '<' ∧ c ≠ '>' ∧ c ≠ '"' ∧ c ≠ apos := by
  unfold escCharL at hc
  by_cases h1 : d = '&'
  · rw [if_pos h1] at hc; fin_cases hc <;> decide
  rw [if_neg h1] at hc
  by_cases h2 : d = '<'
  · rw [if_pos h2] at hc; fin_cases hc <;> decide
  rw [if_neg h2] at hc
  by_cases h3 : d = '>'
  · rw [if_pos h3] at hc; fin_cases hc <;> decide
  rw [if_neg h3] at hc
  by_cases h4 : d = '"'
  · rw [if_pos h4] at hc; fin_cases hc <;> decide
  rw [if_neg h4] at hc
  by_cases h5 : d = apos
  · rw [if_pos h5] at hc; fin_cases hc <;> decide
  rw [if_neg h5] at hc
  simp only [List.mem_singleton] at hc
  subst hc
  exact ⟨h2, h3, h4, h5⟩

/-- A character produced by `escapeCore` is never one of the four
tag/attribute-opening characters. -/
theorem escapeCore_no_special {l : List Char} {c : Char}
    (hc : c ∈ escapeCore l) :
    c ≠ '<' ∧ c ≠ '>' ∧ c ≠ '"' ∧ c ≠ apos := by
  induction l with
  | nil => simp [escapeCore] at hc
  | cons d rest ih =>
    simp only [escapeCore, List.mem_append] at hc
    rcases hc with h | h
    · exact escCharL_no_special h
    · exact ih h

/-- Well-formedness of ampersands in an escaped string: every occurrence of
the character `&` starts one of the five replacement entities
(`&amp;` `&lt;` `&gt;` `&quot;` `&#39;`). -/
def ampOk : List Char → Bool
  | [] => true
  | c :: rest =>
    (if c = '&' then
      (['a', 'm', 'p', ';'].isPrefixOf rest || ['l', 't', ';'].isPrefixOf rest ||
       ['g', 't', ';'].isPrefixOf rest || ['q', 'u', 'o', 't', ';'].isPrefixOf rest ||
       ['#', '3', '9', ';'].isPrefixOf rest)
     else true) && ampOk rest

theorem ampOk_escCharL_append (c : Char) (t : List Char) :
    ampOk (escCharL c ++ t) = ampOk t := by
  unfold escCharL
  by_cases h1 : c = '&'
  · rw [if_pos h1]; simp [ampOk, List.isPrefixOf]
  rw [if_neg h1]
  by_cases h2 : c = '<'
  · rw [if_pos h2]; simp [ampOk, List.isPrefixOf]
  rw [if_neg h2]
  by_cases h3 : c = '>'
  · rw [if_pos h3]; simp [ampOk, List.isPrefixOf]
  rw [if_neg h3]
  by_cases h4 : c = '"'
  · rw [if_pos h4]; simp [ampOk, List.isPrefixOf]
  rw [if_neg h4]
  by_cases h5 : c = apos
  · rw [if_pos h5]; simp [ampOk, List.isPrefixOf]
  rw [if_neg h5]
  simp [ampOk, if_neg h1]

theorem ampOk_escapeCore (l : List Char) : ampOk (escapeCore l) = true := by
  induction l with
  | nil => rfl
  | cons c rest ih => rw [escapeCore, ampOk_escCharL_append]; exact ih

-- ---------------------------------------------------------------------------
-- The mocked response fetcher (src/script.js lines 83-108)
-- ---------------------------------------------------------------------------

/-- The fallback answer of `mockAIResponse`. -/
def fallbackText : String :=
  "I\x27m not sure how to answer that. Could you provide a photo or more details? For urgent issues, you can use the \x27Escalate\x27 button."

/-- Answer for an empty query with no image. -/
def promptText : String :=
  "Please type a question or upload a photo of your crop."

/-- Answer of the pesticide / leaf-spot rule. -/
def leafSpotText : String :=
  "Probable issue: Leaf spot. Recommendation: Remove affected lower leaves. For chemical control, use a copper-based fungicide at the recommended dosage. Please consult your local Krishibhavan for specific product guidance."

/-- Answer of the price / market rule. -/
def priceText : String :=
  "Market rates change daily. It\x27s best to check your local mandi for today\x27s rates. We can provide live rates if connected to a market API."

/-- Answer of the weather / rain rule. -/
def weatherText : String :=
  "Weather Alert: Light showers are expected tomorrow evening. It\x27s advisable to postpone spraying pesticides. Ensure proper drainage for low-lying fields. (This can be integrated with a local weather API)."

/-- The location disclaimer prefixed to every answer when a location is set. -/
def locPrefix : String := "(Based on your approximate location) "

/-- The apology answer produced by the catch branch of `getAIResponse`. -/
def apologyText : String :=
  "Sorry, I couldn\x27t connect to the server. Please check your internet connection and try again."

/-- JavaScript `String.prototype.toLowerCase` on the Latin range: map
`Char.toLower` over the characters (computable restatement of
`String.toLower`). -/
def strToLower (s : String) : String := ⟨s.data.map Char.toLower⟩

/-- JavaScript whitespace as far as `trim` is concerned (the characters a
query could realistically carry). -/
def isJsWs (c : Char) : Bool :=
  c = ' ' || c = '\n' || c = '\t' || c = '\r' || c = Char.ofNat 11 || c = Char.ofNat 12

/-- Drop leading whitespace. -/
def dropLeadingWs : List Char → List Char
  | [] => []
  | c :: rest => if isJsWs c then dropLeadingWs rest else c :: rest

/-- JavaScript `String.prototype.trim`: strip whitespace from both ends. -/
def jsTrim (s : String) : String :=
  ⟨(dropLeadingWs ((dropLeadingWs s.data).reverse)).reverse⟩

/-- Geolocation coordinates; the claims only ever test presence, never the
numeric values. -/
structure GeoLoc where
  lat : Int
  lon : Int
deriving DecidableEq

/-- The context object passed to `mockAIResponse`: an optional location and
the optional last selected image (modelled by its presence). -/
structure MockCtx where
  location : Option GeoLoc
  lastImage : Bool
deriving DecidableEq

/-- Keyword routing of `mockAIResponse` before the location prefix is
applied: the `let text = ...; if ... else if ...` chain of
src/script.js lines 84-95, a pure function of the lowercased query and the
presence of an image. -/
def mockBase (query : String) (img : Bool) : String :=
  let q := strToLower query
  if (q == "") && !img then promptText
  else if strIncludes q "pesticide" || strIncludes q "leaf spot" ||
          (img && strIncludes q "leaf") then leafSpotText
  else if strIncludes q "price" || strIncludes q "market" then priceText
  else if strIncludes q "weather" || strIncludes q "rain" then weatherText
  else fallbackText

/-- The response payload: `{answer, confidence?, sources?, error?}`.  An
absent `error` field (falsy) is modelled as `error = false`. -/
structure Response where
  answer : String
  confidence : Option ℚ
  sources : List String
  error : Bool
deriving DecidableEq

/-- Embedding of `mockAIResponse` from src/script.js: route by keyword, then prefix the
location disclaimer when `ctx.location` is set, and resolve with
confidence 0.85 and a fixed source list.  The `lang` argument is unused by
the source function. -/
def mockAIResponse (query : String) (lang : String) (ctx : MockCtx) : Response :=
  let text := mockBase query ctx.lastImage
  { answer := if ctx.location.isSome then locPrefix ++ text else text
    confidence := some (85 / 100 : ℚ)
    sources := ["Local Agri Dept Guidelines"]
    error := false }

/-- Outcome of the body of the `try` block in `getAIResponse`: either the
backend/mock produced a response, or the attempt threw. -/
inductive FetchOutcome where
  | ok (r : Response)
  | thrown
deriving DecidableEq

/-- Embedding of `getAIResponse` from src/script.js lines 51-77, as a function of the
outcome of its `try` body: a produced response is returned as-is, and a
thrown error is caught and converted to a resolved response carrying
`error = true` and the apology answer.  The promise never rejects. -/
def getAIResponse (outcome : FetchOutcome) : Response :=
  match outcome with
  | .ok r => r
  | .thrown =>
    { answer := apologyText, confidence := none, sources := [], error := true }

-- ---------------------------------------------------------------------------
-- History cache (src/script.js lines 148-153)
-- ---------------------------------------------------------------------------

/-- A history record `{ q, lang, ts, answer }` as pushed by `handleQuery`. -/
structure HistRec where
  q : String
  lang : String
  ts : Nat
  answer : String
deriving DecidableEq

/-- One record operation on the history sequence:
`history.push(rec); if (history.length > 10) history.shift();`. -/
def recordStep (h : List HistRec) (r : HistRec) : List HistRec :=
  let h2 := h ++ [r]
  if 10 < h2.length then h2.tail else h2

/-- Decimal digit characters. -/
def digitChar : Nat → Char
  | 0 => '0' | 1 => '1' | 2 => '2' | 3 => '3' | 4 => '4'
  | 5 => '5' | 6 => '6' | 7 => '7' | 8 => '8' | 9 => '9'
  | _ => '?'

/-- Decimal digit list of a natural number, most significant first
(fuel-bounded so that it evaluates by kernel reduction; the fuel `n + 1`
always suffices since `n / 10 < n`). -/
def natToDigitsAux : Nat → Nat → List Char
  | 0, _ => []
  | fuel + 1, n =>
    if n < 10 then [digitChar n]
    else natToDigitsAux fuel (n / 10) ++ [digitChar (n % 10)]

/-- Decimal digit list of a natural number, most significant first. -/
def natToDigits (n : Nat) : List Char := natToDigitsAux (n + 1) n

theorem digitChar_safe (n : Nat) :
    digitChar n ≠ '<' ∧ digitChar n ≠ '&' ∧ digitChar n ≠ '>' ∧
    digitChar n ≠ '"' ∧ digitChar n ≠ apos := by
  unfold digitChar
  split <;> decide

theorem natToDigitsAux_safe (fuel n : Nat) {c : Char}
    (hc : c ∈ natToDigitsAux fuel n) :
    c ≠ '<' ∧ c ≠ '&' ∧ c ≠ '>' ∧ c ≠ '"' ∧ c ≠ apos := by
  induction fuel generalizing n with
  | zero => simp [natToDigitsAux] at hc
  | succ fuel ih =>
    rw [natToDigitsAux] at hc
    split at hc
    · simp only [List.mem_singleton] at hc
      subst hc; exact digitChar_safe n
    · rcases List.mem_append.mp hc with h1 | h1
      · exact ih _ h1
      · simp only [List.mem_singleton] at h1
        subst h1; exact digitChar_safe (n % 10)

theorem natToDigits_safe (n : Nat) {c : Char} (hc : c ∈ natToDigits n) :
    c ≠ '<' ∧ c ≠ '&' ∧ c ≠ '>' ∧ c ≠ '"' ∧ c ≠ apos :=
  natToDigitsAux_safe (n + 1) n hc

/-- Hexadecimal digit characters (lowercase), as used in `\uXXXX` escapes. -/
def hexDigit (n : Nat) : Char :=
  if n < 10 then digitChar n
  else if n = 10 then 'a' else if n = 11 then 'b' else if n = 12 then 'c'
  else if n = 13 then 'd' else if n = 14 then 'e' else 'f'

/-- Modelled from the spec: `JSON.stringify` escaping of one character inside
a JSON string literal (a browser built-in, not repository code): quote and
backslash are backslash-escaped, the named control characters use their
short escapes, other control characters use `\u00XX`, and everything else
is kept verbatim. -/
def jsonEscChar (c : Char) : List Char :=
  if c = '"' then ['\\', '"']
  else if c = '\\' then ['\\', '\\']
  else if c = '\n' then ['\\', 'n']
  else if c = '\r' then ['\\', 'r']
  else if c = '\t' then ['\\', 't']
  else if c = Char.ofNat 8 then ['\\', 'b']
  else if c = Char.ofNat 12 then ['\\', 'f']
  else if c.toNat < 32 then
    ['\\', 'u', '0', '0', hexDigit (c.toNat / 16), hexDigit (c.toNat % 16)]
  else [c]

/-- Escape a whole string for inclusion in a JSON string literal. -/
def jsonEscape : List Char → List Char
  | [] => []
  | c :: rest => jsonEscChar c ++ jsonEscape rest

/-- Modelled from the spec: `JSON.stringify` of one history record, the
serialization written to durable storage. -/
def stringifyRec (r : HistRec) : String :=
  "\x7b\"q\":\"" ++ ⟨jsonEscape r.q.data⟩ ++ "\",\"lang\":\"" ++ ⟨jsonEscape r.lang.data⟩ ++
  "\",\"ts\":" ++ ⟨natToDigits r.ts⟩ ++ ",\"answer\":\"" ++ ⟨jsonEscape r.answer.data⟩ ++ "\"\x7d"

/-- Modelled from the spec: `JSON.stringify` of the history array, the value
stored under the `kr_history` key. -/
def stringifyHistory (h : List HistRec) : String :=
  "[" ++ String.intercalate "," (h.map stringifyRec) ++ "]"

/-- The mutable application state touched by `handleQuery`: the in-memory
`context.history`, the value persisted under the `kr_history` key
(`none` when the key is absent), and `context.location`. -/
structure AppState where
  history : List HistRec
  stored : Option String
  location : Option GeoLoc
deriving DecidableEq

/-- Observable effects of one submission. -/
structure StepOut where
  state : AppState
  alerted : Bool
  fetched : Bool
  shown : Option (String × Bool)
deriving DecidableEq

/-- Embedding of `handleQuery` from src/script.js lines 113-155, as a state transformer.
`raw` is the textarea content (trimmed by the function), `image` the
presence of `context.lastImage`, `outcome` the result of the fetch
attempt, and `now` the value of `Date.now()`.  `alerted` records the
synchronous validation alert, `fetched` whether the fetcher was invoked,
and `shown` the answer handed to the typewriter together with its error
flag. -/
def handleQuery (st : AppState) (raw lang : String) (image : Bool)
    (outcome : FetchOutcome) (now : Nat) : StepOut :=
  let text := jsTrim raw
  if (text == "") && !image then
    { state := st, alerted := true, fetched := false, shown := none }
  else
    let res := getAIResponse outcome
    if res.error then
      { state := st, alerted := false, fetched := true, shown := some (res.answer, true) }
    else
      let entry : HistRec := { q := text, lang := lang, ts := now, answer := res.answer }
      let h2 := recordStep st.history entry
      { state := { st with history := h2, stored := some (stringifyHistory h2) },
        alerted := false, fetched := true, shown := some (res.answer, false) }

-- ---------------------------------------------------------------------------
-- renderHistory (src/script.js lines 162-179)
-- ---------------------------------------------------------------------------

/-- Markup shown when the history is empty. -/
def emptyHistoryMarkup : String :=
  "<div class=\"meta\" style=\"padding: 10px;\">No recent queries.</div>"

/-- Modelled from the spec: the formatted local timestamp
(`new Date(item.ts).toLocaleString()`, a browser built-in, not repository
code), rendered as a decimal string of the stored instant; the claims only
depend on its characters being plain digits. -/
def formatTs (ts : Nat) : String := ⟨natToDigits ts⟩

/-- Literal template text before the query field of a history item. -/
def tplQ : String := "\n      <div class=\"q\">"

/-- Literal template text between the query and timestamp fields. -/
def tplTs : String := "</div>\n      <div class=\"ts\">"

/-- Literal template text between the timestamp and answer fields. -/
def tplA : String := "</div>\n      <div class=\"a\">"

/-- Literal template text closing a history item. -/
def tplEnd : String := "</div>"

/-- The `innerHTML` template of one history item
(src/script.js lines 173-176), with the query placeholder rule
`escapeHtml(item.q)` falling back to the Image Query placeholder. -/
def renderItem (r : HistRec) : String :=
  tplQ ++ (let e := escapeHtml (some r.q); if e == "" then "Image Query" else e) ++
  tplTs ++ formatTs r.ts ++ tplA ++ escapeHtml (some r.answer) ++ tplEnd

/-- Embedding of `renderHistory`: the list of item markups appended to `historyList`, in
display order — the stored sequence is copied, reversed, and rendered. -/
def renderHistory (h : List HistRec) : List String :=
  if h.isEmpty then [emptyHistoryMarkup]
  else (h.reverse).map renderItem

/-- Scan for a raw `<s` pair: `noLtSAux p l` is true when no character `s`
in `l` immediately follows a `<` (`p` says whether the previous character,
before `l`, was `<`). -/
def noLtSAux : Bool → List Char → Bool
  | _, [] => true
  | p, c :: rest => !(p && c == 's') && noLtSAux (c == '<') rest

/-- Run the same scan over a chunk, returning whether the chunk is clean and
whether it ends with `<`. -/
def runLtS : Bool → List Char → Bool × Bool
  | p, [] => (true, p)
  | p, c :: rest =>
    let r := runLtS (c == '<') rest
    (!(p && c == 's') && r.1, r.2)

theorem noLtSAux_append (a : List Char) (p : Bool) (b : List Char) :
    noLtSAux p (a ++ b) = ((runLtS p a).1 && noLtSAux (runLtS p a).2 b) := by
  induction a generalizing p with
  | nil => simp [runLtS]
  | cons c rest ih =>
    simp only [List.cons_append, noLtSAux, runLtS, List.append_eq]
    rw [ih, Bool.and_assoc]

theorem runLtS_no_lt {a : List Char} (h : '<' ∉ a) :
    runLtS false a = (true, false) := by
  induction a with
  | nil => rfl
  | cons c rest ih =>
    have hc : (c == '<') = false := by
      simp only [beq_eq_false_iff_ne, ne_eq]
      intro hEq; exact h (hEq ▸ List.mem_cons_self c rest)
    have hrest : '<' ∉ rest := fun hm => h (List.mem_cons_of_mem c hm)
    simp [runLtS, hc, ih hrest]

theorem noLtSAux_chunk {a : List Char} (ha : runLtS false a = (true, false))
    (b : List Char) : noLtSAux false (a ++ b) = noLtSAux false b := by
  rw [noLtSAux_append, ha]
  simp

theorem noLtSAux_sandwich (x z : List Char) (p : Bool) :
    noLtSAux p (x ++ '<' :: 's' :: z) = false := by
  induction x generalizing p with
  | nil => simp [noLtSAux]
  | cons c rest ih => simp [noLtSAux, ih]

theorem no_script_of_noLtSAux {l : List Char}
    (h : noLtSAux false l = true) (s : String) :
    listIncl ('<' :: 's' :: s.data) l = false := by
  by_contra hc
  have : listIncl ('<' :: 's' :: s.data) l = true := by
    cases hl : listIncl ('<' :: 's' :: s.data) l
    · exact absurd hl hc
    · rfl
  rcases (listIncl_iff_occurs _ _).mp this with ⟨x, y, hxy⟩
  have : noLtSAux false l = false := by
    rw [← hxy]
    have : x ++ '<' :: 's' :: s.data ++ y = x ++ '<' :: 's' :: (s.data ++ y) := by
      simp
    rw [this, noLtSAux_sandwich]
  rw [this] at h
  cases h

-- ---------------------------------------------------------------------------
-- typewriterEffect (src/script.js lines 185-200)
-- ---------------------------------------------------------------------------

/-- The trailing cursor markup appended during the reveal. -/
def cursorMarkup : String := "<span class=\"cursor\"></span>"

/-- One tick of the `setInterval` callback of `typewriterEffect`: while
`i < text.length`, display `text.slice(0, i + 1)` plus the cursor and
increment `i`; afterwards clear the interval and display the bare text. -/
def twStep (text : String) (s : Nat × String) : Nat × String :=
  if s.1 < text.length then (s.1 + 1, ⟨text.data.take (s.1 + 1)⟩ ++ cursorMarkup)
  else (s.1, text)

/-- State of `typewriterEffect` after `k` interval ticks, starting from the initial
display of the bare cursor. -/
def typewriterEffect (text : String) (k : Nat) : Nat × String :=
  (twStep text)^[k] (0, cursorMarkup)

theorem typewriterEffect_closed_form (text : String) (k : Nat) :
    typewriterEffect text k =
      if k ≤ text.length then (k, ⟨text.data.take k⟩ ++ cursorMarkup)
      else (text.length, text) := by
  induction k with
  | zero =>
    simp only [typewriterEffect, Function.iterate_zero, id_eq, Nat.zero_le, if_pos]
    cases text
    simp [cursorMarkup]
  | succ k ih =>
    rw [typewriterEffect, Function.iterate_succ_apply', ← typewriterEffect, ih]
    by_cases h1 : k + 1 ≤ text.length
    · have h0 : k ≤ text.length := Nat.le_of_succ_le h1
      rw [if_pos h0, if_pos h1, twStep]
      simp only [Nat.lt_iff_add_one_le]
      rw [if_pos h1]
    · by_cases h0 : k ≤ text.length
      · have hk : k = text.length := by omega
        rw [if_pos h0, if_neg h1, twStep]
        split
        · rename_i hlt; simp at hlt; omega
        · simp [hk]
      · rw [if_neg h0, if_neg h1, twStep]
        simp

-- ---------------------------------------------------------------------------
-- Startup history load (src/script.js lines 22-26)
-- ---------------------------------------------------------------------------

/-- JSON values, as produced by parsing the persisted history. -/
inductive Json where
  | null
  | bool (b : Bool)
  | num (n : Int)
  | str (s : String)
  | arr (elems : List Json)
  | obj (fields : List (String × Json))

/-- Skip JSON whitespace. -/
def skipWs : List Char → List Char
  | [] => []
  | c :: rest =>
    if c = ' ' || c = '\n' || c = '\t' || c = '\r' then skipWs rest else c :: rest

/-- Value of one hexadecimal digit. -/
def hexVal (c : Char) : Option Nat :=
  if c.isDigit then some (c.toNat - 48)
  else if 'a' ≤ c && c ≤ 'f' then some (c.toNat - 87)
  else if 'A' ≤ c && c ≤ 'F' then some (c.toNat - 55)
  else none

/-- Parse the body of a JSON string literal after the opening quote,
returning the decoded characters and the remainder after the closing
quote. -/
def parseStrBody : List Char → Option (List Char × List Char)
  | [] => none
  | '"' :: rest => some ([], rest)
  | '\\' :: 'u' :: h1 :: h2 :: h3 :: h4 :: rest => do
      let v1 ← hexVal h1
      let v2 ← hexVal h2
      let v3 ← hexVal h3
      let v4 ← hexVal h4
      let (s, r) ← parseStrBody rest
      some (Char.ofNat (((v1 * 16 + v2) * 16 + v3) * 16 + v4) :: s, r)
  | '\\' :: e :: rest => do
      let c ← (if e = '"' then some '"' else if e = '\\' then some '\\'
               else if e = '/' then some '/' else if e = 'b' then some (Char.ofNat 8)
               else if e = 'f' then some (Char.ofNat 12) else if e = 'n' then some '\n'
               else if e = 'r' then some '\r' else if e = 't' then some '\t' else none)
      let (s, r) ← parseStrBody rest
      some (c :: s, r)
  | c :: rest => do
      let (s, r) ← parseStrBody rest
      some (c :: s, r)

/-- Split leading decimal digits from the rest. -/
def takeDigits : List Char → (List Char × List Char)
  | [] => ([], [])
  | c :: rest =>
    if c.isDigit then
      let (d, r) := takeDigits rest
      (c :: d, r)
    else ([], c :: rest)

/-- Numeric value of a list of decimal digits. -/
def digitsVal (l : List Char) : Nat :=
  l.foldl (fun a c => a * 10 + (c.toNat - 48)) 0

/-- Parse a JSON integer (optional minus sign followed by digits). -/
def parseNum (l : List Char) : Option (Int × List Char) :=
  match l with
  | '-' :: rest =>
    let (d, r) := takeDigits rest
    if d.isEmpty then none else some (-(digitsVal d : Int), r)
  | _ =>
    let (d, r) := takeDigits l
    if d.isEmpty then none else some ((digitsVal d : Int), r)

mutual

/-- Parse one JSON value (fuel-bounded recursion). -/
def parseVal : Nat → List Char → Option (Json × List Char)
  | 0, _ => none
  | f + 1, l =>
    match skipWs l with
    | 'n' :: 'u' :: 'l' :: 'l' :: rest => some (.null, rest)
    | 't' :: 'r' :: 'u' :: 'e' :: rest => some (.bool true, rest)
    | 'f' :: 'a' :: 'l' :: 's' :: 'e' :: rest => some (.bool false, rest)
    | '"' :: rest => do
        let (s, r) ← parseStrBody rest
        some (.str ⟨s⟩, r)
    | '[' :: rest =>
      (match skipWs rest with
       | ']' :: r => some (.arr [], r)
       | l2 => do
          let (v, r) ← parseVal f l2
          parseArrRest f [v] r)
    | '\x7b' :: rest =>
      (match skipWs rest with
       | '\x7d' :: r => some (.obj [], r)
       | '"' :: r => do
          let (k, r2) ← parseStrBody r
          (match skipWs r2 with
           | ':' :: r3 => do
              let (v, r4) ← parseVal f r3
              parseObjRest f [(⟨k⟩, v)] r4
           | _ => none)
       | _ => none)
    | l2 => do
        let (n, r) ← parseNum l2
        some (.num n, r)

/-- Parse the remaining elements of a JSON array after the first. -/
def parseArrRest : Nat → List Json → List Char → Option (Json × List Char)
  | 0, _, _ => none
  | f + 1, acc, l =>
    match skipWs l with
    | ',' :: r => do
        let (v, r2) ← parseVal f r
        parseArrRest f (acc ++ [v]) r2
    | ']' :: r => some (.arr acc, r)
    | _ => none

/-- Parse the remaining members of a JSON object after the first. -/
def parseObjRest : Nat → List (String × Json) → List Char → Option (Json × List Char)
  | 0, _, _ => none
  | f + 1, acc, l =>
    match skipWs l with
    | ',' :: r =>
      (match skipWs r with
       | '"' :: r1 => do
          let (k, r2) ← parseStrBody r1
          (match skipWs r2 with
           | ':' :: r3 => do
              let (v, r4) ← parseVal f r3
              parseObjRest f (acc ++ [(⟨k⟩, v)]) r4
           | _ => none)
       | _ => none)
    | '\x7d' :: r => some (.obj acc, r)
    | _ => none

end

/-- Modelled from the spec: `JSON.parse` (a browser built-in, not repository
code), restricted to the value forms the application ever stores or reads
back — objects, arrays, strings with escapes, integers, booleans and null.
A malformed input yields `.error`, the model of the thrown `SyntaxError`. -/
def jsonParse (s : String) : Except String Json :=
  match parseVal (s.data.length + 1) s.data with
  | some (j, rest) =>
    if (skipWs rest).isEmpty then .ok j else .error "Unexpected token after JSON value"
  | none => .error "Unexpected token in JSON"

/-- The startup read of the persisted history
(`JSON.parse(localStorage.getItem('kr_history') || '[]')`,
src/script.js lines 22-26): an absent key (`none`) or an empty stored
string falls back to the literal `"[]"`; everything else is handed to
`JSON.parse` unguarded — there is no try/catch around this call. -/
def loadHistory (stored : Option String) : Except String Json :=
  jsonParse (match stored with
             | none => "[]"
             | some s => if s == "" then "[]" else s)

/-- Whether an `Except` result is a success. -/
def isOkB {ε α : Type} : Except ε α → Bool
  | .ok _ => true
  | .error _ => false

-- ---------------------------------------------------------------------------
-- Supporting lemmas for the claims
-- ---------------------------------------------------------------------------

theorem strIncludes_append_right {s t pat : String}
    (h : strIncludes t pat = true) : strIncludes (s ++ t) pat = true := by
  rw [strIncludes_iff_occurs] at h ⊢
  rcases h with ⟨x, y, hxy⟩
  exact ⟨s.data ++ x, y, by rw [String.data_append, ← hxy]; simp⟩

theorem strToLower_eq_empty_iff (s : String) : strToLower s = "" ↔ s = "" := by
  constructor
  · intro h
    have hd : (strToLower s).data = [] := by rw [h]
    have : s.data.map Char.toLower = [] := hd
    have : s.data = [] := List.map_eq_nil.mp this
    cases s; simp_all
  · intro h; rw [h]; rfl

theorem escapeCore_eq_self_of_safe {l : List Char}
    (h : ∀ c ∈ l, c ≠ '<' ∧ c ≠ '&' ∧ c ≠ '>' ∧ c ≠ '"' ∧ c ≠ apos) :
    escapeCore l = l := by
  induction l with
  | nil => rfl
  | cons c rest ih =>
    rw [escapeCore]
    have hc := h c (List.mem_cons_self c rest)
    have hrest : escapeCore rest = rest := ih fun d hd => h d (List.mem_cons_of_mem c hd)
    rw [hrest]
    unfold escCharL
    rw [if_neg hc.2.1, if_neg hc.1, if_neg hc.2.2.1, if_neg hc.2.2.2.1,
      if_neg hc.2.2.2.2]
    rfl

theorem escape_script_entity {s : String} (h : strIncludes s "<script>" = true) :
    strIncludes (⟨escapeCore s.data⟩ : String) "&lt;script&gt;" = true := by
  rw [strIncludes_iff_occurs] at h ⊢
  rcases h with ⟨x, y, hxy⟩
  refine ⟨escapeCore x, escapeCore y, ?_⟩
  have hent : escapeCore "<script>".data = "&lt;script&gt;".data := by decide
  show escapeCore x ++ "&lt;script&gt;".data ++ escapeCore y = escapeCore s.data
  rw [← hxy, escapeCore_append, escapeCore_append, hent]

-- ---------------------------------------------------------------------------
-- Claim theorems
-- ---------------------------------------------------------------------------

/-- Claim C9 (confirmed): `escapeHtml` is total and neutralizing — a
`null`/`undefined` input yields the empty string, and for every input the
output never contains `<`, `>`, `"` or `'`, while every `&` in the output
starts one of the five replacement entities, so the output cannot open a
tag or attribute. -/
theorem escapeHtml_total_neutralizing (s : Option String) :
    escapeHtml none = "" ∧
    (escapeHtml s).data.all
      (fun d => d != '<' && d != '>' && d != '"' && d != apos) = true ∧
    ampOk (escapeHtml s).data = true := by
  refine ⟨rfl, ?_, ampOk_escapeCore _⟩
  rw [List.all_eq_true]
  intro d hd
  have h := escapeCore_no_special (l := ((s.getD "").data)) hd
  simp only [Bool.and_eq_true, bne_iff_ne, ne_eq]
  exact ⟨⟨⟨h.1, h.2.1⟩, h.2.2.1⟩, h.2.2.2⟩

/-- Claim C7 (confirmed): with a location set, every answer of the mocked
fetcher is the location disclaimer followed by the routed text; with no
location the answer is exactly the routed text, and no routed text itself
begins with the disclaimer. -/
theorem location_disclaimer_uniform (query lang : String) (img : Bool) (l : GeoLoc) :
    (mockAIResponse query lang ⟨some l, img⟩).answer = locPrefix ++ mockBase query img ∧
    (mockAIResponse query lang ⟨none, img⟩).answer = mockBase query img ∧
    locPrefix.data.isPrefixOf (mockBase query img).data = false := by
  refine ⟨rfl, rfl, ?_⟩
  unfold mockBase
  dsimp only
  repeat' split
  all_goals decide

/-- Counterexample to claim C2 as stated: the query `"pesticide price"`
contains `"price"`, yet its answer is the leaf-spot text — which mentions
neither mandi nor market — because the pesticide/leaf-spot rule fires
first.  The unconditional universal for the price/market rule is
therefore false. -/
theorem keyword_routing_counterexample :
    strIncludes (strToLower "pesticide price") "price" = true ∧
    (mockAIResponse "pesticide price" "en" ⟨none, false⟩).answer = leafSpotText ∧
    strIncludes (mockAIResponse "pesticide price" "en" ⟨none, false⟩).answer "mandi" = false ∧
    strIncludes (mockAIResponse "pesticide price" "en" ⟨none, false⟩).answer "market" = false :=
  ⟨by decide, by rfl, by decide, by decide⟩

/-- Claim C2 (amended): keyword routing is first-match-wins over the ordered
rules.  A query containing `"leaf spot"` always gets an answer containing
`"Leaf spot"`; a query containing `"price"`/`"market"` gets the
mandi/market answer provided no earlier rule matches; a query containing
`"weather"`/`"rain"` gets the weather/spraying answer provided no earlier
rule matches; an empty query with no image gets the input prompt; and a
query matching no rule gets the `"not sure"` fallback. -/
theorem keyword_routing_amended (query lang : String) (img : Bool) (loc : Option GeoLoc) :
    (strIncludes (strToLower query) "leaf spot" = true →
      strIncludes (mockAIResponse query lang ⟨loc, img⟩).answer "Leaf spot" = true) ∧
    ((strIncludes (strToLower query) "price" || strIncludes (strToLower query) "market") = true →
      strIncludes (strToLower query) "pesticide" = false →
      strIncludes (strToLower query) "leaf spot" = false →
      (img && strIncludes (strToLower query) "leaf") = false →
      mockBase query img = priceText ∧
      strIncludes (mockAIResponse query lang ⟨loc, img⟩).answer "mandi" = true) ∧
    ((strIncludes (strToLower query) "weather" || strIncludes (strToLower query) "rain") = true →
      strIncludes (strToLower query) "pesticide" = false →
      strIncludes (strToLower query) "leaf spot" = false →
      (img && strIncludes (strToLower query) "leaf") = false →
      strIncludes (strToLower query) "price" = false →
      strIncludes (strToLower query) "market" = false →
      mockBase query img = weatherText ∧
      strIncludes (mockAIResponse query lang ⟨loc, img⟩).answer "spraying" = true) ∧
    (query = "" → img = false → mockBase query img = promptText) ∧
    (strIncludes (strToLower query) "pesticide" = false →
      strIncludes (strToLower query) "leaf spot" = false →
      (img && strIncludes (strToLower query) "leaf") = false →
      strIncludes (strToLower query) "price" = false →
      strIncludes (strToLower query) "market" = false →
      strIncludes (strToLower query) "weather" = false →
      strIncludes (strToLower query) "rain" = false →
      (query = "" → img = true) →
      mockBase query img = fallbackText ∧
      strIncludes (mockAIResponse query lang ⟨loc, img⟩).answer "not sure" = true) := by
  have hanseq : (mockAIResponse query lang ⟨loc, img⟩).answer =
      if loc.isSome then locPrefix ++ mockBase query img else mockBase query img := rfl
  have hcontain : ∀ b pat : String, mockBase query img = b → strIncludes b pat = true →
      strIncludes (mockAIResponse query lang ⟨loc, img⟩).answer pat = true := by
    intro b pat hb hwit
    rw [hanseq]
    cases loc with
    | none => simpa [hb] using hwit
    | some l =>
      simp only [Option.isSome_some, if_true]
      rw [hb]
      exact strIncludes_append_right hwit
  refine ⟨?_, ?_, ?_, ?_, ?_⟩
  · intro h
    have hne : strToLower query ≠ "" := strIncludes_ne_nil (by decide) h
    have h0 : (strToLower query == "") = false := beq_eq_false_iff_ne.mpr hne
    have hbase : mockBase query img = leafSpotText := by simp [mockBase, h0, h]
    exact hcontain _ _ hbase (by decide)
  · intro h1 h2 h3 h4
    have hne : strToLower query ≠ "" := by
      cases hp : strIncludes (strToLower query) "price" with
      | true => exact strIncludes_ne_nil (by decide) hp
      | false =>
        have hm : strIncludes (strToLower query) "market" = true := by
          rw [hp] at h1; simpa using h1
        exact strIncludes_ne_nil (by decide) hm
    have h0 : (strToLower query == "") = false := beq_eq_false_iff_ne.mpr hne
    have hbase : mockBase query img = priceText := by
      simp [mockBase, h0, h1, h2, h3, h4]
    exact ⟨hbase, hcontain _ _ hbase (by decide)⟩
  · intro h1 h2 h3 h4 h5 h6
    have hne : strToLower query ≠ "" := by
      cases hw : strIncludes (strToLower query) "weather" with
      | true => exact strIncludes_ne_nil (by decide) hw
      | false =>
        have hr : strIncludes (strToLower query) "rain" = true := by
          rw [hw] at h1; simpa using h1
        exact strIncludes_ne_nil (by decide) hr
    have h0 : (strToLower query == "") = false := beq_eq_false_iff_ne.mpr hne
    have hbase : mockBase query img = weatherText := by
      simp [mockBase, h0, h1, h2, h3, h4, h5, h6]
    exact ⟨hbase, hcontain _ _ hbase (by decide)⟩
  · intro hq himg
    subst hq; subst himg; rfl
  · intro h2 h3 h4 h5 h6 h7 h8 himp
    have h0 : ((strToLower query == "") && !img) = false := by
      cases himg : img
      · have hq : query ≠ "" := fun hq => absurd (himp hq) (by rw [himg]; decide)
        have hql : strToLower query ≠ "" :=
          fun hEq => hq ((strToLower_eq_empty_iff query).mp hEq)
        simp [beq_eq_false_iff_ne.mpr hql]
      · simp
    have hbase : mockBase query img = fallbackText := by
      simp [mockBase, h0, h2, h3, h4, h5, h6, h7, h8]
    exact ⟨hbase, hcontain _ _ hbase (by decide)⟩

/-- Witness for C2 (amended): each routing branch at a concrete input. -/
theorem keyword_routing_amended_witness :
    strIncludes (mockAIResponse "how to treat leaf spot" "en" ⟨some ⟨1, 2⟩, false⟩).answer
      "Leaf spot" = true ∧
    strIncludes (mockAIResponse "market price of onion" "en" ⟨none, false⟩).answer
      "mandi" = true ∧
    strIncludes (mockAIResponse "will it rain tomorrow" "en" ⟨none, false⟩).answer
      "spraying" = true ∧
    mockBase "" false = promptText ∧
    mockBase "how to grow brinjal" false = fallbackText := by
  refine ⟨?_, ?_, ?_, ?_, ?_⟩
  · exact (keyword_routing_amended "how to treat leaf spot" "en" false (some ⟨1, 2⟩)).1
      (by decide)
  · exact ((keyword_routing_amended "market price of onion" "en" false none).2.1
      (by decide) (by decide) (by decide) (by decide)).2
  · exact ((keyword_routing_amended "will it rain tomorrow" "en" false none).2.2.1
      (by decide) (by decide) (by decide) (by decide) (by decide) (by decide)).2
  · exact (keyword_routing_amended "" "en" false none).2.2.2.1 rfl rfl
  · exact ((keyword_routing_amended "how to grow brinjal" "en" false none).2.2.2.2
      (by decide) (by decide) (by decide) (by decide) (by decide) (by decide) (by decide)
      (fun h => absurd h (by decide))).1

/-- Claim C10 (confirmed): an image-only submission (image present, empty
query) gets the generic `"not sure"` fallback; for a nonempty query not
containing `"leaf"`, image presence does not change the routed answer at
all; and without `"leaf"` or `"pesticide"` in the query the leaf-spot
answer is never selected, image or not. -/
theorem image_only_fallback :
    mockBase "" true = fallbackText ∧
    strIncludes fallbackText "not sure" = true ∧
    (∀ query : String, strIncludes (strToLower query) "leaf" = false → query ≠ "" →
      mockBase query true = mockBase query false) ∧
    (∀ (query : String) (img : Bool), strIncludes (strToLower query) "leaf" = false →
      strIncludes (strToLower query) "pesticide" = false →
      mockBase query img ≠ leafSpotText) := by
  refine ⟨rfl, by decide, ?_, ?_⟩
  · intro query hleaf hq
    have hql : strToLower query ≠ "" :=
      fun hEq => hq ((strToLower_eq_empty_iff query).mp hEq)
    have h0 : (strToLower query == "") = false := beq_eq_false_iff_ne.mpr hql
    have hls : strIncludes (strToLower query) "leaf spot" = false := by
      cases hc : strIncludes (strToLower query) "leaf spot"
      · rfl
      · exact absurd (strIncludes_trans (p := "leaf") (by decide) hc) (by simp [hleaf])
    simp [mockBase, h0, hleaf, hls]
  · intro query img hleaf hpest
    have hls : strIncludes (strToLower query) "leaf spot" = false := by
      cases hc : strIncludes (strToLower query) "leaf spot"
      · rfl
      · exact absurd (strIncludes_trans (p := "leaf") (by decide) hc) (by simp [hleaf])
    have hcond2 : (strIncludes (strToLower query) "pesticide" ||
        strIncludes (strToLower query) "leaf spot" ||
        (img && strIncludes (strToLower query) "leaf")) = false := by
      simp [hpest, hls, hleaf]
    unfold mockBase
    dsimp only
    split
    · decide
    · split
      · rename_i hcond
        rw [hcond2] at hcond
        exact absurd hcond (by decide)
      · split
        · decide
        · split
          · decide
          · decide

/-- Witness for C10: image presence is inert for a concrete non-leaf query. -/
theorem image_only_fallback_witness :
    mockBase "tomato wilt" true = mockBase "tomato wilt" false ∧
    mockBase "tomato wilt" true ≠ leafSpotText :=
  ⟨image_only_fallback.2.2.1 "tomato wilt" (by decide) (by decide),
   image_only_fallback.2.2.2 "tomato wilt" true (by decide) (by decide)⟩

/-- Claim C6 (confirmed): a submission whose trimmed query is empty and
which has no image is blocked — the user is alerted synchronously, the
fetcher is not invoked (for any would-be outcome), and neither the history
nor the persisted storage changes. -/
theorem empty_submission_blocked (st : AppState) (raw lang : String)
    (outcome : FetchOutcome) (now : Nat) (h : jsTrim raw = "") :
    handleQuery st raw lang false outcome now =
      { state := st, alerted := true, fetched := false, shown := none } := by
  simp [handleQuery, h]

/-- Witness for C6 at a whitespace-only query. -/
theorem empty_submission_blocked_witness :
    handleQuery ⟨[⟨"a", "en", 1, "b"⟩], some "s", none⟩ "   " "en" false .thrown 0 =
      { state := ⟨[⟨"a", "en", 1, "b"⟩], some "s", none⟩, alerted := true,
        fetched := false, shown := none } :=
  empty_submission_blocked _ "   " "en" .thrown 0 (by decide)

/-- Claim C3 (confirmed): the fetch attempt always resolves — a throw is
converted to a response with `error = true` and the apology answer — and
on any error response `handleQuery` still shows the answer but leaves the
history and the persisted storage untouched (no record is created). -/
theorem error_response_no_record (st : AppState) (raw lang : String) (image : Bool)
    (outcome : FetchOutcome) (now : Nat)
    (hguard : ((jsTrim raw == "") && !image) = false)
    (herr : (getAIResponse outcome).error = true) :
    getAIResponse .thrown =
      { answer := apologyText, confidence := none, sources := [], error := true } ∧
    handleQuery st raw lang image outcome now =
      { state := st, alerted := false, fetched := true,
        shown := some ((getAIResponse outcome).answer, true) } := by
  refine ⟨rfl, ?_⟩
  simp [handleQuery, hguard, herr]

/-- Witness for C3: a thrown fetch over a nonempty history changes nothing. -/
theorem error_response_no_record_witness :
    handleQuery ⟨[⟨"a", "en", 1, "b"⟩], some "s", none⟩ "hello" "en" false .thrown 9 =
      { state := ⟨[⟨"a", "en", 1, "b"⟩], some "s", none⟩, alerted := false,
        fetched := true, shown := some (apologyText, true) } :=
  (error_response_no_record ⟨[⟨"a", "en", 1, "b"⟩], some "s", none⟩ "hello" "en" false
    .thrown 9 (by decide) (by decide)).2

theorem recordStep_drop (rs : List HistRec) (h : List HistRec) (hb : h.length ≤ 10) :
    List.foldl recordStep h rs = (h ++ rs).drop (h.length + rs.length - 10) := by
  induction rs generalizing h with
  | nil =>
    simp only [List.foldl_nil, List.length_nil, Nat.add_zero, List.append_nil]
    rw [Nat.sub_eq_zero_of_le hb, List.drop_zero]
  | cons r rs ih =>
    rw [List.foldl_cons]
    by_cases hlt : h.length < 10
    · have hstep : recordStep h r = h ++ [r] := by
        unfold recordStep
        rw [if_neg (by simp; omega)]
      rw [hstep, ih (h ++ [r]) (by simp; omega)]
      congr 1
      · simp; omega
      · simp
    · have h10 : h.length = 10 := by omega
      cases h with
      | nil => simp at h10
      | cons a h2 =>
        simp only [List.length_cons] at h10
        have hstep : recordStep (a :: h2) r = h2 ++ [r] := by
          unfold recordStep
          rw [if_pos (by simp; omega)]
          rfl
        rw [hstep, ih (h2 ++ [r]) (by simp; omega)]
        have hlen2 : (h2 ++ [r]).length = 10 := by simp; omega
        rw [hlen2]
        have hL : (h2 ++ [r]) ++ rs = h2 ++ (r :: rs) := by simp
        rw [hL]
        have hidx1 : 10 + rs.length - 10 = rs.length := by omega
        have hidx2 : (a :: h2).length + (r :: rs).length - 10 = rs.length + 1 := by
          simp; omega
        rw [hidx1, hidx2]
        rw [show (a :: h2) ++ (r :: rs) = a :: (h2 ++ (r :: rs)) from rfl]
        rw [List.drop_succ_cons]

/-- Counterexample to claim C1 as stated: starting from a persisted history
of 11 records (which `load` accepts unchanged), 11 successful submissions
leave the cache at length 11 — the bound `length <= 10` never recovers
because eviction removes only one record per insertion — and the first of
the 11 new records is still present. -/
theorem history_bound_counterexample :
    (List.foldl recordStep (List.replicate 11 (⟨"old", "en", 0, "x"⟩ : HistRec))
      ((List.range 11).map (fun i => (⟨"new", "en", i + 1, "y"⟩ : HistRec)))).length = 11 ∧
    (⟨"new", "en", 1, "y"⟩ : HistRec) ∈
      List.foldl recordStep (List.replicate 11 (⟨"old", "en", 0, "x"⟩ : HistRec))
        ((List.range 11).map (fun i => (⟨"new", "en", i + 1, "y"⟩ : HistRec))) := by
  constructor
  · rfl
  · decide

/-- Claim C1 (amended): provided the starting history holds at most 10
records (true of every history the application itself produces), each
record operation appends the new record at the end, evicts exactly one
record from the front when the bound would be exceeded, and keeps
`length <= 10`; consequently, from any such starting history, submitting
11 queries leaves the cache holding exactly records 2 through 11. -/
theorem history_bounded_amended :
    (∀ (h : List HistRec) (r : HistRec), h.length ≤ 10 →
      (recordStep h r).length ≤ 10 ∧
      (h.length < 10 → recordStep h r = h ++ [r]) ∧
      (h.length = 10 → recordStep h r = (h ++ [r]).tail)) ∧
    (∀ (h rs : List HistRec), h.length ≤ 10 → rs.length = 11 →
      List.foldl recordStep h rs = rs.tail) := by
  constructor
  · intro h r hb
    refine ⟨?_, ?_, ?_⟩
    · unfold recordStep
      dsimp only
      split
      · simpa using hb
      · rename_i hgt
        simp at hgt ⊢
        omega
    · intro hlt
      unfold recordStep
      rw [if_neg (by simp; omega)]
    · intro h10
      unfold recordStep
      rw [if_pos (by simp; omega)]
  · intro h rs hb hlen
    rw [recordStep_drop rs h hb, hlen]
    have hidx : h.length + 11 - 10 = h.length + 1 := by omega
    rw [hidx, List.drop_add, List.drop_left, List.drop_one]

/-- Witness for C1 (amended): a full cache stays at the bound, and from an
empty cache 11 distinct submissions leave exactly records 2 through 11. -/
theorem history_bounded_amended_witness :
    (recordStep (List.replicate 10 (⟨"old", "en", 0, "x"⟩ : HistRec))
      ⟨"new", "en", 1, "y"⟩).length ≤ 10 ∧
    List.foldl recordStep ([] : List HistRec)
      ((List.range 11).map (fun i => (⟨"q", "en", i + 1, "a"⟩ : HistRec))) =
      ((List.range 11).map (fun i => (⟨"q", "en", i + 1, "a"⟩ : HistRec))).tail :=
  ⟨(history_bounded_amended.1 (List.replicate 10 ⟨"old", "en", 0, "x"⟩)
      ⟨"new", "en", 1, "y"⟩ (by decide)).1,
   history_bounded_amended.2 [] _ (by decide) (by decide)⟩

/-- Counterexample to claim C8 as stated: for the answer `"a"` (length 1),
after 1 tick the displayed text is still the full answer followed by the
cursor markup, not the bare answer — the cursor is only removed on the
following tick. -/
theorem typewriter_counterexample :
    ("a" : String).length = 1 ∧
    (typewriterEffect "a" 1).2 ≠ "a" ∧
    (typewriterEffect "a" 1).2 = "a" ++ cursorMarkup ∧
    (typewriterEffect "a" 2).2 = "a" :=
  ⟨rfl, by decide, rfl, rfl⟩

/-- Claim C8 (amended): for an answer of length N, tick k (k ≤ N) displays
exactly the k-character prefix followed by the cursor markup — so the
revealed prefix grows by one character per tick and is a proper prefix
before tick N — and from tick N + 1 on the displayed text is the full
answer with the cursor removed. -/
theorem typewriter_amended (text : String) (k : Nat) :
    (typewriterEffect text k).1 = min k text.length ∧
    (k ≤ text.length →
      typewriterEffect text k = (k, (⟨text.data.take k⟩ : String) ++ cursorMarkup)) ∧
    (text.length < k → typewriterEffect text k = (text.length, text)) := by
  have hcf := typewriterEffect_closed_form text k
  by_cases hk : k ≤ text.length
  · rw [if_pos hk] at hcf
    refine ⟨?_, fun _ => hcf, fun hlt => absurd hk (by omega)⟩
    rw [hcf]
    simp [Nat.min_eq_left hk]
  · rw [if_neg hk] at hcf
    refine ⟨?_, fun hle => absurd hle hk, fun _ => hcf⟩
    rw [hcf]
    simp
    omega

/-- Witness for C8 (amended) on the answer `"ab"`. -/
theorem typewriter_amended_witness :
    typewriterEffect "ab" 1 = (1, (⟨("ab" : String).data.take 1⟩ : String) ++ cursorMarkup) ∧
    typewriterEffect "ab" 3 = (2, "ab") :=
  ⟨(typewriter_amended "ab" 1).2.1 (by decide), (typewriter_amended "ab" 3).2.2 (by decide)⟩

/-- Claim C5 (confirmed): history rendering lists the records most recent
first; an empty query shows the `Image Query` placeholder; the timestamp
field is invariant under HTML escaping (so all three fields coincide with
their escaped forms); a `<script>` payload in the query or the answer
appears in the markup as literal angle-bracket entities; and the rendered
item never contains raw `<script>` markup. -/
theorem render_history_safe (h : List HistRec) (r : HistRec) :
    (h ≠ [] → renderHistory h = (h.reverse).map renderItem) ∧
    (r.q = "" → strIncludes (renderItem r) "Image Query" = true) ∧
    escapeHtml (some (formatTs r.ts)) = formatTs r.ts ∧
    (strIncludes r.q "<script>" = true →
      strIncludes (renderItem r) "&lt;script&gt;" = true) ∧
    (strIncludes r.answer "<script>" = true →
      strIncludes (renderItem r) "&lt;script&gt;" = true) ∧
    strIncludes (renderItem r) "<script>" = false := by
  have hshape : renderItem r =
      tplQ ++ (if escapeHtml (some r.q) == "" then "Image Query" else escapeHtml (some r.q)) ++
      tplTs ++ formatTs r.ts ++ tplA ++ escapeHtml (some r.answer) ++ tplEnd := rfl
  refine ⟨?_, ?_, ?_, ?_, ?_, ?_⟩
  · intro hne
    rw [renderHistory, if_neg (by simp [List.isEmpty_iff, hne])]
  · intro hq
    have hfield : renderItem r =
        tplQ ++ "Image Query" ++ tplTs ++ formatTs r.ts ++ tplA ++
        escapeHtml (some r.answer) ++ tplEnd := by
      rw [hshape, hq]
      rfl
    rw [hfield, strIncludes_iff_occurs]
    refine ⟨tplQ.data,
      (tplTs ++ formatTs r.ts ++ tplA ++ escapeHtml (some r.answer) ++ tplEnd).data, ?_⟩
    simp [String.data_append, List.append_assoc]
  · have hid : escapeCore (natToDigits r.ts) = natToDigits r.ts :=
      escapeCore_eq_self_of_safe (fun c hc => natToDigitsAux_safe _ _ hc)
    exact String.ext hid
  · intro h4
    have hqne : r.q ≠ "" := strIncludes_ne_nil (by decide) h4
    have hescne : (escapeHtml (some r.q) == "") = false := by
      rw [beq_eq_false_iff_ne]
      intro hEq
      have hd : escapeCore r.q.data = [] := congrArg String.data hEq
      exact hqne (String.ext ((escapeCore_eq_nil_iff _).mp hd))
    have hfield : renderItem r =
        tplQ ++ escapeHtml (some r.q) ++ tplTs ++ formatTs r.ts ++ tplA ++
        escapeHtml (some r.answer) ++ tplEnd := by
      rw [hshape, hescne]
      rfl
    have hps : strIncludes (escapeHtml (some r.q)) "&lt;script&gt;" = true :=
      escape_script_entity h4
    rw [strIncludes_iff_occurs] at hps ⊢
    rcases hps with ⟨x, y, hxy⟩
    refine ⟨tplQ.data ++ x,
      y ++ (tplTs ++ formatTs r.ts ++ tplA ++ escapeHtml (some r.answer) ++ tplEnd).data, ?_⟩
    rw [hfield]
    simp only [String.data_append, ← hxy, List.append_assoc]
  · intro h5
    have hps : strIncludes (escapeHtml (some r.answer)) "&lt;script&gt;" = true :=
      escape_script_entity h5
    rw [strIncludes_iff_occurs] at hps ⊢
    rcases hps with ⟨x, y, hxy⟩
    refine ⟨(tplQ ++ (if escapeHtml (some r.q) == "" then "Image Query"
        else escapeHtml (some r.q)) ++ tplTs ++ formatTs r.ts ++ tplA).data ++ x,
      y ++ tplEnd.data, ?_⟩
    rw [hshape]
    simp only [String.data_append, ← hxy, List.append_assoc]
  · have hna : '<' ∉ (escapeHtml (some r.answer)).data :=
      fun hm => (escapeCore_no_special hm).1 rfl
    have hnts : '<' ∉ (formatTs r.ts).data :=
      fun hm => (natToDigitsAux_safe _ _ hm).1 rfl
    have hnq : '<' ∉ (escapeHtml (some r.q)).data :=
      fun hm => (escapeCore_no_special hm).1 rfl
    have hfieldsafe : '<' ∉ (if escapeHtml (some r.q) == "" then "Image Query"
        else escapeHtml (some r.q)).data := by
      split
      · decide
      · exact hnq
    have hdata : (renderItem r).data =
        tplQ.data ++ ((if escapeHtml (some r.q) == "" then "Image Query"
          else escapeHtml (some r.q)).data ++ (tplTs.data ++ ((formatTs r.ts).data ++
          (tplA.data ++ ((escapeHtml (some r.answer)).data ++ tplEnd.data))))) := by
      rw [hshape]
      simp [String.data_append, List.append_assoc]
    have c1 : runLtS false tplQ.data = (true, false) := by decide
    have c2 : runLtS false tplTs.data = (true, false) := by decide
    have c3 : runLtS false tplA.data = (true, false) := by decide
    have hnl : noLtSAux false (renderItem r).data = true := by
      rw [hdata, noLtSAux_chunk c1, noLtSAux_chunk (runLtS_no_lt hfieldsafe),
        noLtSAux_chunk c2, noLtSAux_chunk (runLtS_no_lt hnts),
        noLtSAux_chunk c3, noLtSAux_chunk (runLtS_no_lt hna)]
      decide
    have hno := no_script_of_noLtSAux hnl "cript>"
    have hpat : ("<script>" : String).data = '<' :: 's' :: ("cript>" : String).data := by
      decide
    show listIncl ("<script>" : String).data (renderItem r).data = false
    rw [hpat]
    exact hno

/-- Witness for C5: rendering order, placeholder, escaped `<script>`
payloads in query and answer, and absence of raw markup, at concrete
records. -/
theorem render_history_safe_witness :
    renderHistory [⟨"a", "en", 1, "b"⟩] = [renderItem ⟨"a", "en", 1, "b"⟩] ∧
    strIncludes (renderItem ⟨"", "en", 1, "b"⟩) "Image Query" = true ∧
    strIncludes (renderItem ⟨"see <script>alert(1)</script>", "en", 7, "fine"⟩)
      "&lt;script&gt;" = true ∧
    strIncludes (renderItem ⟨"q", "en", 7, "<script>bad</script>"⟩)
      "&lt;script&gt;" = true ∧
    strIncludes (renderItem ⟨"see <script>", "en", 7, "fine"⟩) "<script>" = false := by
  refine ⟨?_, ?_, ?_, ?_, ?_⟩
  · exact (render_history_safe [⟨"a", "en", 1, "b"⟩] ⟨"a", "en", 1, "b"⟩).1 (by decide)
  · exact (render_history_safe [] ⟨"", "en", 1, "b"⟩).2.1 rfl
  · exact (render_history_safe [] ⟨"see <script>alert(1)</script>", "en", 7, "fine"⟩).2.2.2.1
      (by decide)
  · exact (render_history_safe [] ⟨"q", "en", 7, "<script>bad</script>"⟩).2.2.2.2.1
      (by decide)
  · exact (render_history_safe [] ⟨"see <script>", "en", 7, "fine"⟩).2.2.2.2.2

/-- Counterexample to claim C4 as stated: a corrupt stored value (a lone opening brace,
not valid JSON) does not load as the empty sequence — `JSON.parse` is
called without a try/catch, so the parse error propagates instead of being
swallowed. -/
theorem load_corrupt_counterexample :
    isOkB (loadHistory (some "\x7b")) = false ∧
    loadHistory (some "\x7b") ≠ Except.ok (Json.arr []) := by
  refine ⟨rfl, fun hEq => ?_⟩
  have h1 : isOkB (loadHistory (some "\x7b")) = false := rfl
  rw [hEq] at h1
  exact absurd h1 (by simp [isOkB])

/-- Claim C4 (amended): loading yields the stored value whenever the stored
string parses as JSON, and an absent key or an empty stored string yields
the empty sequence; but corrupt (unparseable) content yields an uncaught
parse error rather than an empty sequence. -/
theorem load_amended (s : String) (j : Json) (e : String) :
    loadHistory none = Except.ok (Json.arr []) ∧
    loadHistory (some "") = Except.ok (Json.arr []) ∧
    (s ≠ "" → jsonParse s = Except.ok j → loadHistory (some s) = Except.ok j) ∧
    (s ≠ "" → jsonParse s = Except.error e → loadHistory (some s) = Except.error e) := by
  refine ⟨rfl, rfl, ?_, ?_⟩
  · intro hne hok
    have h0 : (s == "") = false := beq_eq_false_iff_ne.mpr hne
    simp [loadHistory, h0, hok]
  · intro hne herr
    have h0 : (s == "") = false := beq_eq_false_iff_ne.mpr hne
    simp [loadHistory, h0, herr]

/-- Witness for C4 (amended): a well-formed serialized record round-trips,
and a corrupt value yields a parse error. -/
theorem load_amended_witness :
    loadHistory (some "[\x7b\"q\":\"hi\",\"lang\":\"en\",\"ts\":5,\"answer\":\"ok\"\x7d]") =
      Except.ok (Json.arr [Json.obj [("q", Json.str "hi"), ("lang", Json.str "en"),
        ("ts", Json.num 5), ("answer", Json.str "ok")]]) ∧
    loadHistory (some "not json") = Except.error "Unexpected token in JSON" := by
  constructor
  · exact (load_amended "[\x7b\"q\":\"hi\",\"lang\":\"en\",\"ts\":5,\"answer\":\"ok\"\x7d]"
      (Json.arr [Json.obj [("q", Json.str "hi"), ("lang", Json.str "en"),
        ("ts", Json.num 5), ("answer", Json.str "ok")]]) "x").2.2.1
      (by decide) (by rfl)
  · exact (load_amended "not json" Json.null "Unexpected token in JSON").2.2.2
      (by decide) (by rfl)

end Krishimitra
